import Mathlib

/-!
Verification development for the frider feed-notification program.

The definitions below are a shallow embedding of the program's final
iteration (the Go sources: the `storage` type, `calcItemUID` /
`calcFeedUID`, `processFeeds`, `processExecFeeds` and the dispatcher loop
body of `sendEmails`).  External collaborators (the filesystem, the
template engine, the feed parser, command execution and the SMTP
transport) are modelled as explicit oracles/parameters, as the spec
treats them as interface-level collaborators.  Machine integers are
modelled as `Nat` reduced modulo 2^32 where Go uses `uint32`.
-/

namespace Frider

/-! ## SHA-256 (shallow embedding of Go's `crypto/sha256.Sum256`)

The storage layer hashes identity strings with SHA-256 and renders the
digest in lowercase hex (`fmt.Sprintf("%x", sha256.Sum256([]byte(k)))`).
We embed the full FIPS 180-4 algorithm over byte lists (`Nat` values
below 256), with 32-bit words as `Nat` modulo 2^32. -/

/-- Reduce to a 32-bit word. -/
def w32 (n : Nat) : Nat := n % 4294967296

/-- Rotate a 32-bit word right by n positions. -/
def rotr (n x : Nat) : Nat := w32 ((x >>> n) ||| (x <<< (32 - n)))

/-- Bitwise complement within 32 bits. -/
def not32 (x : Nat) : Nat := x ^^^ 4294967295

def ch (x y z : Nat) : Nat := (x &&& y) ^^^ (not32 x &&& z)

def maj (x y z : Nat) : Nat := (x &&& y) ^^^ (x &&& z) ^^^ (y &&& z)

def bigSigma0 (x : Nat) : Nat := rotr 2 x ^^^ rotr 13 x ^^^ rotr 22 x

def bigSigma1 (x : Nat) : Nat := rotr 6 x ^^^ rotr 11 x ^^^ rotr 25 x

def smallSigma0 (x : Nat) : Nat := rotr 7 x ^^^ rotr 18 x ^^^ (x >>> 3)

def smallSigma1 (x : Nat) : Nat := rotr 17 x ^^^ rotr 19 x ^^^ (x >>> 10)

/-- SHA-256 initial hash value (FIPS 180-4 §5.3.3). -/
def sha256H0 : List Nat :=
  [1779033703, 3144134277, 1013904242, 2773480762,
   1359893119, 2600822924, 528734635, 1541459225]

/-- SHA-256 round constants (FIPS 180-4 §4.2.2). -/
def sha256K : List Nat :=
  [1116352408, 1899447441, 3049323471, 3921009573,
   961987163, 1508970993, 2453635748, 2870763221,
   3624381080, 310598401, 607225278, 1426881987,
   1925078388, 2162078206, 2614888103, 3248222580,
   3835390401, 4022224774, 264347078, 604807628,
   770255983, 1249150122, 1555081692, 1996064986,
   2554220882, 2821834349, 2952996808, 3210313671,
   3336571891, 3584528711, 113926993, 338241895,
   666307205, 773529912, 1294757372, 1396182291,
   1695183700, 1986661051, 2177026350, 2456956037,
   2730485921, 2820302411, 3259730800, 3345764771,
   3516065817, 3600352804, 4094571909, 275423344,
   430227734, 506948616, 659060556, 883997877,
   958139571, 1322822218, 1537002063, 1747873779,
   1955562222, 2024104815, 2227730452, 2361852424,
   2428436474, 2756734187, 3204031479, 3329325298]

/-- `count` bytes of `n` in big-endian order. -/
def beBytes : Nat → Nat → List Nat
  | 0, _ => []
  | c + 1, n => beBytes c (n >>> 8) ++ [n % 256]

/-- SHA-256 message padding: append 0x80, zero bytes up to 56 mod 64,
then the 64-bit big-endian bit length. -/
def padMsg (m : List Nat) : List Nat :=
  let L := m.length
  let zeros := (119 - L % 64) % 64
  m ++ [0x80] ++ List.replicate zeros 0 ++ beBytes 8 (8 * L)

/-- Group bytes into big-endian 32-bit words. -/
def toWords : List Nat → List Nat
  | a :: b :: c :: d :: rest =>
      (a * 16777216 + b * 65536 + c * 256 + d) :: toWords rest
  | _ => []

/-- Extend a 16-word message block to the 64-word schedule. -/
def extendSchedule : Nat → List Nat → List Nat
  | 0, acc => acc
  | n + 1, acc =>
      let t := acc.length
      let w := w32 (smallSigma1 (acc.getD (t - 2) 0) + acc.getD (t - 7) 0 +
        smallSigma0 (acc.getD (t - 15) 0) + acc.getD (t - 16) 0)
      extendSchedule n (acc ++ [w])

/-- One SHA-256 compression round on the 8-word working state. -/
def sha256Round (st : List Nat) (kw : Nat × Nat) : List Nat :=
  match st with
  | [a, b, c, d, e, f, g, h] =>
      let t1 := w32 (h + bigSigma1 e + ch e f g + kw.1 + kw.2)
      let t2 := w32 (bigSigma0 a + maj a b c)
      [w32 (t1 + t2), a, b, c, w32 (d + t1), e, f, g]
  | _ => st

/-- Compress one 64-byte block into the running hash value. -/
def compressBlock (h : List Nat) (block : List Nat) : List Nat :=
  let ws := extendSchedule 48 (toWords block)
  let st := (sha256K.zip ws).foldl sha256Round h
  h.zipWith (fun x y => w32 (x + y)) st

/-- Process a padded message 64 bytes at a time (fuel = message length,
which strictly bounds the number of blocks). -/
def processBlocks : Nat → List Nat → List Nat → List Nat
  | 0, _, h => h
  | fuel + 1, msg, h =>
      match msg with
      | [] => h
      | _ => processBlocks fuel (msg.drop 64) (compressBlock h (msg.take 64))

/-- SHA-256 digest (32 bytes) of a byte list. -/
def sha256Bytes (m : List Nat) : List Nat :=
  let p := padMsg m
  let hs := processBlocks p.length p sha256H0
  (hs.map (beBytes 4)).flatten

/-- UTF-8 encoding of one character, as Go's `[]byte(string)` produces. -/
def utf8EncodeChar (c : Char) : List Nat :=
  let n := c.toNat
  if n < 0x80 then [n]
  else if n < 0x800 then
    [0xC0 ||| (n >>> 6), 0x80 ||| (n &&& 0x3F)]
  else if n < 0x10000 then
    [0xE0 ||| (n >>> 12), 0x80 ||| ((n >>> 6) &&& 0x3F), 0x80 ||| (n &&& 0x3F)]
  else
    [0xF0 ||| (n >>> 18), 0x80 ||| ((n >>> 12) &&& 0x3F),
     0x80 ||| ((n >>> 6) &&& 0x3F), 0x80 ||| (n &&& 0x3F)]

/-- Byte encoding of a string (Go `[]byte(k)`). -/
def strBytes (s : String) : List Nat :=
  (s.toList.map utf8EncodeChar).flatten

/-- Lowercase hex digit for a value below 16, as `fmt.Sprintf("%x", ...)`. -/
def hexDigit (n : Nat) : Char :=
  Char.ofNat (if n < 10 then 48 + n else 87 + n)

/-- Two lowercase hex digits of one byte. -/
def byteToHex (b : Nat) : List Char :=
  [hexDigit (b / 16 % 16), hexDigit (b % 16)]

/-- The character list of the lowercase-hex SHA-256 digest of a string:
Go's `fmt.Sprintf("%x", sha256.Sum256([]byte(k)))`. -/
def hexSha256Chars (k : String) : List Char :=
  ((sha256Bytes (strBytes k)).map byteToHex).flatten

/-- The lowercase-hex SHA-256 digest of a string. -/
def hexSha256 (k : String) : String :=
  String.mk (hexSha256Chars k)

/-! ## Data model

`gofeed.Feed` / `gofeed.Item` are external parser output; we model the
fields the program reads.  `feedItem` is the program's own struct (its
`Config` pointer is ambient in Go via the global `config`; here the
configuration is passed explicitly, and the template oracles close over
whatever fields they need). -/

structure Item where
  title : String := ""
  link : String := ""
  guid : String := ""
  content : String := ""
  description : String := ""
deriving DecidableEq, Repr

structure Feed where
  title : String := ""
  feedLink : String := ""
  link : String := ""
  items : List Item := []
deriving DecidableEq, Repr

structure FeedSpec where
  name : String := ""
  url : String := ""
  skipTLSVerify : Bool := false
  exec : List String := []
deriving DecidableEq, Repr

/-- One feed/item pair handed to templates and queued for notification.
In `processFeeds` the feed-identity computation uses a `feedItem` whose
`Item` pointer is nil; we model that pointer as an `Option`. -/
structure feedItem where
  feed : Feed
  item : Option Item
  feedSpec : FeedSpec
deriving DecidableEq, Repr

/-- The compiled templates of the configuration.  Template execution is
an external collaborator (`text/template`); a compiled template is a
function from the dot value to `some` rendered text, or `none` when
execution fails. -/
def Tpl : Type := feedItem → Option String

structure Config where
  itemUIDTpl : Tpl
  feedUIDTpl : Tpl
  senderTpl : Tpl
  subjectTpl : Tpl
  contentTpl : Tpl
  recipient : String
  storagePath : String

/-! ## IdentityStore (the `storage` type)

The durable state is a filesystem modelled as an association list from
path to file content.  Filesystem failures are injected through an
oracle environment: each operation either succeeds or yields the error
text Go would have received. -/

/-- Filesystem contents: path ↦ file content. -/
abbrev FS := List (String × String)

/-- Does a path exist (what a successful `os.Stat` reports)? -/
def FS.hasPath (fs : FS) (p : String) : Bool :=
  fs.any (fun e => e.1 == p)

/-- Create or truncate-and-write a file (`os.Create` + `Write`). -/
def FS.insert (fs : FS) (p v : String) : FS :=
  (p, v) :: fs.filter (fun e => e.1 != p)

/-- Content of a path, if present. -/
def FS.lookup (fs : FS) (p : String) : Option String :=
  (fs.find? (fun e => e.1 == p)).map (fun e => e.2)

/-- Error injection for the storage operations.  `none` means the
operation succeeds; `some e` means it fails with error text `e`.
`statErr` models a `Stat` failure other than `ErrNotExist`. -/
structure StorageEnv where
  statErr : String → Option String
  mkdirErr : String → Option String
  createErr : String → Option String
  writeErr : String → Option String

/-- The environment in which every storage operation succeeds. -/
def cleanEnv : StorageEnv :=
  ⟨fun _ => none, fun _ => none, fun _ => none, fun _ => none⟩

structure storage where
  path : String
deriving DecidableEq, Repr

/-- Key path of an identity: hex SHA-256 of the identity, first two hex
characters as the shard directory, the full hex digest as the file name
(`filepath.Join(s.path, h[:2], h)`). -/
def storage.keyPath (s : storage) (k : String) : String :=
  let h := hexSha256 k
  s.path ++ "/" ++ String.mk ((hexSha256Chars k).take 2) ++ "/" ++ h

/-- The shard directory of a key (`filepath.Dir` of its key path). -/
def storage.keyDir (s : storage) (k : String) : String :=
  s.path ++ "/" ++ String.mk ((hexSha256Chars k).take 2)

/-- `storage.has`: `Stat` the key path.  On a non-`ErrNotExist` error it
logs a warning and reports `false`; on absence it reports `false`
silently; otherwise `true`.  Returns (result, log lines). -/
def storage.has (env : StorageEnv) (s : storage) (fs : FS) (k : String) :
    Bool × List String :=
  let kp := s.keyPath k
  match env.statErr kp with
  | some e => (false, ["warn: cannot stat key " ++ kp ++ " in storage: " ++ e])
  | none => (fs.hasPath kp, [])

/-- `storage.set`: `MkdirAll` the shard directory, `Create` the key file,
then write the identity string as its content.  Every failure is logged
and swallowed; a failure after `Create` leaves the created empty file in
place.  Returns (new filesystem, log lines). -/
def storage.set (env : StorageEnv) (s : storage) (fs : FS) (k : String) :
    FS × List String :=
  let kp := s.keyPath k
  let d := s.keyDir k
  match env.mkdirErr d with
  | some e => (fs, ["warn: cannot create dir " ++ d ++ " in storage: " ++ e])
  | none =>
    match env.createErr kp with
    | some e => (fs, ["cannot create key " ++ kp ++ " in storage: " ++ e])
    | none =>
      let fs1 := fs.insert kp ""
      match env.writeErr kp with
      | some e =>
          (fs1, ["cannot write content of key " ++ kp ++ " in storage: " ++ e])
      | none => (fs1.insert kp k, [])

/-! ## UID derivation and the dedup filter (`processFeeds`) -/

/-- `calcItemUID`: render the item UID template; `none` on failure
(Go returns `("", error)`). -/
def calcItemUID (cfg : Config) (i : feedItem) : Option String :=
  cfg.itemUIDTpl i

/-- `calcFeedUID`: render the feed UID template. -/
def calcFeedUID (cfg : Config) (i : feedItem) : Option String :=
  cfg.feedUIDTpl i

/-- The item loop of `processFeeds`: for each item compute its UID (on
failure log and continue); if the feed was seen, enqueue the item iff
`storage.has` reports its UID absent; if the feed was not seen, mark the
UID immediately.  Threads (filesystem, queue, logs). -/
def processItems (cfg : Config) (env : StorageEnv) (st : storage)
    (f : Feed) (fsp : FeedSpec) (seenFeed : Bool) :
    List Item → FS → List feedItem → List String →
    FS × List feedItem × List String
  | [], fs, q, logs => (fs, q, logs)
  | i :: rest, fs, q, logs =>
    let fi : feedItem := ⟨f, some i, fsp⟩
    match calcItemUID cfg fi with
    | none =>
        processItems cfg env st f fsp seenFeed rest fs q
          (logs ++ ["warn: failed to calculate item uid in feed " ++ fsp.name])
    | some itemUID =>
        if seenFeed then
          let r := storage.has env st fs itemUID
          if r.1 then
            processItems cfg env st f fsp seenFeed rest fs q (logs ++ r.2)
          else
            processItems cfg env st f fsp seenFeed rest fs (q ++ [fi]) (logs ++ r.2)
        else
          let r := storage.set env st fs itemUID
          processItems cfg env st f fsp seenFeed rest r.1 q (logs ++ r.2)

/-- `processFeeds`: the dedup filter.  Computes the feed UID (an error
aborts this feed with an error value), tests whether the feed was seen,
runs the item loop, then marks the feed UID.  Returns the new
filesystem, the list of enqueued notification events (the sends on
`itemChan`, in order) and the log lines. -/
def processFeeds (cfg : Config) (env : StorageEnv) (st : storage)
    (fsp : FeedSpec) (f : Feed) (fs0 : FS) :
    Except String (FS × List feedItem × List String) :=
  match calcFeedUID cfg ⟨f, none, fsp⟩ with
  | none =>
      .error ("failed to calculate feed uid in feed " ++ fsp.name)
  | some feedUID =>
      let seen := storage.has env st fs0 feedUID
      let r := processItems cfg env st f fsp seen.1 f.items fs0 [] []
      let fin := storage.set env st r.1 feedUID
      .ok (fin.1, r.2.1, seen.2 ++ r.2.2 ++ fin.2)

/-! ## Command-based ingestion (`processExecFeeds`) -/

/-- Outcome of `exec.Command(...).Output()`: stdout on success, the
captured stderr on a non-zero exit (`exec.ExitError`), or another
error's text. -/
inductive ExecOutcome where
  | ok (stdout : String)
  | exitErr (stderr : String)
  | otherErr (msg : String)
deriving DecidableEq, Repr

/-- Oracles for the exec path: running a command line and parsing its
stdout into a feed (`gofeed.Parser.Parse`; `none` = parse error). -/
structure ExecEnv where
  execCmd : List String → ExecOutcome
  parse : String → Option Feed

/-- `processExecFeeds`: drain the queue of command Sources.  A failed
command or parse is logged and the Source skipped; otherwise the feed
goes through `processFeeds`.  Returns (filesystem, queued events, logs). -/
def processExecFeeds (cfg : Config) (env : StorageEnv) (xenv : ExecEnv)
    (st : storage) : List FeedSpec → FS → FS × List feedItem × List String
  | [], fs => (fs, [], [])
  | fsp :: rest, fs =>
    let info := "info: processing exec feed: " ++ fsp.name
    match xenv.execCmd fsp.exec with
    | .exitErr stderr =>
        let r := processExecFeeds cfg env xenv st rest fs
        (r.1, r.2.1,
          info :: ("warn: failed to run exec feed " ++ fsp.name ++
            " successfully: " ++ stderr) :: r.2.2)
    | .otherErr m =>
        let r := processExecFeeds cfg env xenv st rest fs
        (r.1, r.2.1,
          info :: ("warn: failed to run exec feed " ++ fsp.name ++
            " successfully: " ++ m) :: r.2.2)
    | .ok out =>
        match xenv.parse out with
        | none =>
            let r := processExecFeeds cfg env xenv st rest fs
            (r.1, r.2.1,
              info :: ("warn: failed to parse exec feed " ++ fsp.name) :: r.2.2)
        | some f =>
            match processFeeds cfg env st fsp f fs with
            | .error e =>
                let r := processExecFeeds cfg env xenv st rest fs
                (r.1, r.2.1, info :: ("warn: " ++ e) :: r.2.2)
            | .ok res =>
                let r := processExecFeeds cfg env xenv st rest res.1
                (r.1, res.2.1 ++ r.2.1, (info :: res.2.2) ++ r.2.2)

/-! ## Notification dispatch (the loop body of `sendEmails`) -/

/-- The SMTP transport collaborator: sending (from, message) either
succeeds or yields an error. -/
structure MailEnv where
  sendErr : String → String → Option String

/-- The RFC-822 message assembled by `sendEmails`. -/
def mkEmailMsg (cfg : Config) (sender subject content : String) : String :=
  "From: " ++ sender ++ "\r\nTo: " ++ cfg.recipient ++ "\r\nSubject: " ++
    subject ++ "\r\nContent-Type: text/html;charset=utf8\r\n\r\n" ++ content

/-- Whether processing an event reaches a successful delivery: all three
templates render and the transport reports no error. -/
def deliverySucceeds (cfg : Config) (menv : MailEnv) (fi : feedItem) : Bool :=
  match cfg.senderTpl fi, cfg.subjectTpl fi, cfg.contentTpl fi with
  | some sender, some subject, some content =>
      (menv.sendErr sender (mkEmailMsg cfg sender subject content)).isNone
  | _, _, _ => false

/-- One iteration of the `sendEmails` worker loop on one queued event:
recompute the item UID (discarding the error result), render sender,
subject and content (logging and dropping the event on failure), send,
and only on successful delivery mark the UID in storage. -/
def sendEmailsStep (cfg : Config) (env : StorageEnv) (menv : MailEnv)
    (st : storage) (fs : FS) (fi : feedItem) : FS × List String :=
  let uid := (calcItemUID cfg fi).getD ""
  match cfg.senderTpl fi with
  | none => (fs, ["warn: failed to render sender tpl"])
  | some sender =>
    match cfg.subjectTpl fi with
    | none => (fs, ["warn: failed to render subject tpl"])
    | some subject =>
      match cfg.contentTpl fi with
      | none => (fs, ["warn: failed to render content tpl"])
      | some content =>
        match menv.sendErr sender (mkEmailMsg cfg sender subject content) with
        | some e => (fs, ["warn: failed to send email: " ++ e])
        | none =>
          let title := match fi.item with
            | some i => i.title
            | none => ""
          let r := storage.set env st fs uid
          (r.1, ("info: sent feed email: " ++ fi.feedSpec.name ++ " - " ++
            title) :: r.2)

/-- The full `sendEmails` drain over a queue of events. -/
def sendEmailsRun (cfg : Config) (env : StorageEnv) (menv : MailEnv)
    (st : storage) : List feedItem → FS → FS × List String
  | [], fs => (fs, [])
  | fi :: rest, fs =>
    let r := sendEmailsStep cfg env menv st fs fi
    let r2 := sendEmailsRun cfg env menv st rest r.1
    (r2.1, r.2 ++ r2.2)

/-- The per-item notification decision of the seen-feed pass, against a
fixed filesystem. -/
def notifyDecision (cfg : Config) (env : StorageEnv) (st : storage)
    (f : Feed) (fsp : FeedSpec) (fs : FS) (i : Item) : Bool :=
  match calcItemUID cfg ⟨f, some i, fsp⟩ with
  | none => false
  | some uid => !(storage.has env st fs uid).1

/-! ## Witness fixtures: concrete configurations, feeds and
environments used by the closed instance theorems below. -/

def stW : storage := ⟨"st"⟩

def itm1 : Item := { title := "first post", guid := "i1" }

def itm2 : Item := { title := "second post", guid := "i2" }

def itm3 : Item := { title := "third post", guid := "i3" }

/-- A feed carrying two items. -/
def fW : Feed := { feedLink := "F", items := [itm1, itm2] }

/-- A feed carrying no items. -/
def fW0 : Feed := { feedLink := "F" }

def fspW : FeedSpec := { name := "w", url := "http://example.net/feed" }

/-- A command-based Source. -/
def fspX : FeedSpec := { name := "x", exec := ["mycmd", "arg"] }

/-- A configuration whose templates mirror the default
`feed_uid`/`item_uid` shape (feed link, feed link + GUID) and whose
email templates always render. -/
def cfgW : Config where
  itemUIDTpl := fun fi => fi.item.map (fun i => fi.feed.feedLink ++ "|" ++ i.guid)
  feedUIDTpl := fun fi => some fi.feed.feedLink
  senderTpl := fun _ => some "me <me@example.net>"
  subjectTpl := fun fi => some ((fi.item.map (fun i => i.title)).getD "")
  contentTpl := fun _ => some "body"
  recipient := "you <you@example.net>"
  storagePath := "st"

/-- Environment in which every `Stat` fails with a non-not-found error. -/
def envStat : StorageEnv :=
  ⟨fun _ => some "permission denied", fun _ => none, fun _ => none, fun _ => none⟩

/-- Environment in which directory creation fails. -/
def envMkdir : StorageEnv :=
  ⟨fun _ => none, fun _ => some "read-only filesystem", fun _ => none, fun _ => none⟩

/-- Environment in which file creation fails. -/
def envCreate : StorageEnv :=
  ⟨fun _ => none, fun _ => none, fun _ => some "too many open files", fun _ => none⟩

/-- Environment in which only the content write fails (the file is
created, then the write errors, e.g. on a full disk). -/
def envWr : StorageEnv :=
  ⟨fun _ => none, fun _ => none, fun _ => none, fun _ => some "no space left on device"⟩

/-- Exec oracle whose command always exits non-zero with stderr text. -/
def xenvErr : ExecEnv := ⟨fun _ => .exitErr "boom", fun _ => none⟩

/-- Mail transport that always fails. -/
def menvFail : MailEnv := ⟨fun _ _ => some "smtp down"⟩

/-- Mail transport that always succeeds. -/
def menvOk : MailEnv := ⟨fun _ _ => none⟩

/-! ### Digest-shape lemmas -/

theorem beBytes_length (c n : Nat) : (beBytes c n).length = c := by
  induction c generalizing n with
  | zero => rfl
  | succ c ih => simp [beBytes, ih]

theorem sha256Round_length (st : List Nat) (kw : Nat × Nat)
    (h : st.length = 8) : (sha256Round st kw).length = 8 := by
  match st, h with
  | [a, b, c, d, e, f, g, k], _ => rfl

theorem foldl_sha256Round_length (l : List (Nat × Nat)) (st : List Nat)
    (h : st.length = 8) : (l.foldl sha256Round st).length = 8 := by
  induction l generalizing st with
  | nil => exact h
  | cons kw l ih => exact ih _ (sha256Round_length st kw h)

theorem compressBlock_length (h block : List Nat) (hl : h.length = 8) :
    (compressBlock h block).length = 8 := by
  unfold compressBlock
  rw [List.length_zipWith, foldl_sha256Round_length _ _ hl, hl]
  rfl

theorem processBlocks_length (fuel : Nat) (msg h : List Nat)
    (hl : h.length = 8) : (processBlocks fuel msg h).length = 8 := by
  induction fuel generalizing msg h with
  | zero => exact hl
  | succ fuel ih =>
      cases msg with
      | nil => exact hl
      | cons b bs => exact ih _ _ (compressBlock_length _ _ hl)

theorem join_map_length {α β : Type} (f : α → List β) (c : Nat)
    (h : ∀ a, (f a).length = c) (l : List α) :
    ((l.map f).flatten).length = l.length * c := by
  induction l with
  | nil => simp
  | cons a l ih => simp [h, ih]; ring

theorem sha256Bytes_length (m : List Nat) : (sha256Bytes m).length = 32 := by
  unfold sha256Bytes
  rw [join_map_length (beBytes 4) 4 (fun a => beBytes_length 4 a),
    processBlocks_length _ _ sha256H0 (by rfl)]

/-- The hex digest always has exactly 64 characters. -/
theorem hexSha256Chars_length (k : String) : (hexSha256Chars k).length = 64 := by
  unfold hexSha256Chars
  rw [join_map_length byteToHex 2 (fun b => rfl), sha256Bytes_length]

/-! ## Filesystem lemmas -/

theorem FS.hasPath_filter_ne (fs : FS) (p q : String) (hpq : p ≠ q) :
    (fs.filter (fun e => e.1 != p)).any (fun e => e.1 == q) =
      fs.any (fun e => e.1 == q) := by
  induction fs with
  | nil => rfl
  | cons e fs ih =>
      by_cases hep : e.1 = p
      · have h1 : (e.1 != p) = false := by simp [hep]
        have h2 : (e.1 == q) = false := by simp [hep, hpq]
        simp [List.filter_cons, h1, h2, ih]
      · have h1 : (e.1 != p) = true := by simp [hep]
        simp [List.filter_cons, h1, List.any_cons, ih]

theorem FS.hasPath_insert (fs : FS) (p v q : String) :
    (fs.insert p v).hasPath q = (p == q || fs.hasPath q) := by
  unfold FS.insert FS.hasPath
  by_cases hpq : p = q
  · subst hpq; simp
  · have hb : (p == q) = false := by simp [hpq]
    simp only [List.any_cons, hb, Bool.false_or]
    exact FS.hasPath_filter_ne fs p q hpq

theorem FS.hasPath_insert_self (fs : FS) (p v : String) :
    (fs.insert p v).hasPath p = true := by
  rw [FS.hasPath_insert]; simp

theorem FS.lookup_insert_self (fs : FS) (p v : String) :
    (fs.insert p v).lookup p = some v := by
  unfold FS.insert FS.lookup
  simp [List.find?_cons]

/-- A successful `set` is the double insert (create empty, then write). -/
theorem set_cleanEnv (st : storage) (fs : FS) (k : String) :
    storage.set cleanEnv st fs k =
      ((fs.insert (st.keyPath k) "").insert (st.keyPath k) k, []) := rfl

theorem hasPath_set_cleanEnv (st : storage) (fs : FS) (k q : String) :
    (storage.set cleanEnv st fs k).1.hasPath q =
      (st.keyPath k == q || fs.hasPath q) := by
  rw [set_cleanEnv]
  simp only [FS.hasPath_insert]
  cases h : (st.keyPath k == q) <;> simp [h]

theorem hasPath_set_cleanEnv_self (st : storage) (fs : FS) (k : String) :
    (storage.set cleanEnv st fs k).1.hasPath (st.keyPath k) = true := by
  rw [hasPath_set_cleanEnv]; simp

theorem hasPath_set_cleanEnv_mono (st : storage) (fs : FS) (k q : String)
    (h : fs.hasPath q = true) :
    (storage.set cleanEnv st fs k).1.hasPath q = true := by
  rw [hasPath_set_cleanEnv, h, Bool.or_true]

theorem has_cleanEnv (st : storage) (fs : FS) (k : String) :
    storage.has cleanEnv st fs k = (fs.hasPath (st.keyPath k), []) := rfl

/-! ## Item-loop lemmas -/

/-- In the unseen-feed pass the loop never enqueues, only grows the
filesystem, and (in the clean environment) records every computable
item UID. -/
theorem processItems_unseen (cfg : Config) (st : storage) (f : Feed)
    (fsp : FeedSpec) (items : List Item) (fs : FS) (q : List feedItem)
    (logs : List String) :
    (processItems cfg cleanEnv st f fsp false items fs q logs).2.1 = q ∧
    (∀ p, fs.hasPath p = true →
      (processItems cfg cleanEnv st f fsp false items fs q logs).1.hasPath p = true) ∧
    (∀ i ∈ items, ∀ uid, calcItemUID cfg ⟨f, some i, fsp⟩ = some uid →
      (processItems cfg cleanEnv st f fsp false items fs q logs).1.hasPath
        (st.keyPath uid) = true) := by
  induction items generalizing fs logs with
  | nil =>
      refine ⟨rfl, fun p hp => hp, fun i hi => absurd hi (List.not_mem_nil i)⟩
  | cons i rest ih =>
      cases hud : calcItemUID cfg ⟨f, some i, fsp⟩ with
      | none =>
          have h := ih fs (logs ++ ["warn: failed to calculate item uid in feed " ++ fsp.name])
          refine ⟨?_, ?_, ?_⟩
          · simpa [processItems, hud] using h.1
          · intro p hp
            simpa [processItems, hud] using h.2.1 p hp
          · intro j hj uid huid
            rcases List.mem_cons.mp hj with rfl | hj
            · rw [hud] at huid; exact absurd huid (by simp)
            · simpa [processItems, hud] using h.2.2 j hj uid huid
      | some uid =>
          have h := ih (storage.set cleanEnv st fs uid).1 (logs ++ (storage.set cleanEnv st fs uid).2)
          refine ⟨?_, ?_, ?_⟩
          · simpa [processItems, hud] using h.1
          · intro p hp
            have := h.2.1 p (hasPath_set_cleanEnv_mono st fs uid p hp)
            simpa [processItems, hud] using this
          · intro j hj uid' huid'
            rcases List.mem_cons.mp hj with rfl | hj
            · rw [hud] at huid'
              injection huid' with he
              subst he
              have := h.2.1 (st.keyPath uid) (hasPath_set_cleanEnv_self st fs uid)
              simpa [processItems, hud] using this
            · simpa [processItems, hud] using h.2.2 j hj uid' huid'

/-- In the seen-feed pass the loop leaves the filesystem untouched and
enqueues exactly the items whose UID computes and is reported absent,
in the feed's native order. -/
theorem processItems_seen (cfg : Config) (env : StorageEnv) (st : storage)
    (f : Feed) (fsp : FeedSpec) (items : List Item) (fs : FS)
    (q : List feedItem) (logs : List String) :
    (processItems cfg env st f fsp true items fs q logs).1 = fs ∧
    (processItems cfg env st f fsp true items fs q logs).2.1 =
      q ++ (items.filter (notifyDecision cfg env st f fsp fs)).map
        (fun i => ⟨f, some i, fsp⟩) := by
  induction items generalizing q logs with
  | nil => exact ⟨rfl, by simp [processItems]⟩
  | cons i rest ih =>
      cases hud : calcItemUID cfg ⟨f, some i, fsp⟩ with
      | none =>
          have h := ih q (logs ++ ["warn: failed to calculate item uid in feed " ++ fsp.name])
          have hd : notifyDecision cfg env st f fsp fs i = false := by
            simp [notifyDecision, hud]
          refine ⟨?_, ?_⟩
          · simpa [processItems, hud] using h.1
          · rw [List.filter_cons, hd]
            simpa [processItems, hud] using h.2
      | some uid =>
          cases hhas : (storage.has env st fs uid).1 with
          | true =>
              have h := ih q (logs ++ (storage.has env st fs uid).2)
              have hd : notifyDecision cfg env st f fsp fs i = false := by
                simp [notifyDecision, hud, hhas]
              refine ⟨?_, ?_⟩
              · simpa [processItems, hud, hhas] using h.1
              · rw [List.filter_cons, hd]
                simpa [processItems, hud, hhas] using h.2
          | false =>
              have h := ih (q ++ [(⟨f, some i, fsp⟩ : feedItem)])
                (logs ++ (storage.has env st fs uid).2)
              have hd : notifyDecision cfg env st f fsp fs i = true := by
                simp [notifyDecision, hud, hhas]
              refine ⟨?_, ?_⟩
              · simpa [processItems, hud, hhas] using h.1
              · rw [List.filter_cons, hd]
                have h2 := h.2
                simp only [List.append_assoc, List.singleton_append] at h2 ⊢
                simpa [processItems, hud, hhas] using h2

/-- Every event the item loop enqueues has a computable item UID. -/
theorem processItems_queue_uids (cfg : Config) (env : StorageEnv)
    (st : storage) (f : Feed) (fsp : FeedSpec) (seenFeed : Bool)
    (items : List Item) (fs : FS) (q : List feedItem) (logs : List String)
    (hq : ∀ fi ∈ q, (calcItemUID cfg fi).isSome = true) :
    ∀ fi ∈ (processItems cfg env st f fsp seenFeed items fs q logs).2.1,
      (calcItemUID cfg fi).isSome = true := by
  induction items generalizing fs q logs with
  | nil => exact hq
  | cons i rest ih =>
      cases hud : calcItemUID cfg ⟨f, some i, fsp⟩ with
      | none =>
          intro fi hfi
          refine ih fs q
            (logs ++ ["warn: failed to calculate item uid in feed " ++ fsp.name]) hq fi ?_
          simpa [processItems, hud] using hfi
      | some uid =>
          cases hsf : seenFeed with
          | false =>
              intro fi hfi
              refine ih (storage.set env st fs uid).1 q
                (logs ++ (storage.set env st fs uid).2) hq fi ?_
              rw [hsf]
              simpa [processItems, hud, hsf] using hfi
          | true =>
              cases hhas : (storage.has env st fs uid).1 with
              | true =>
                  intro fi hfi
                  refine ih fs q (logs ++ (storage.has env st fs uid).2) hq fi ?_
                  rw [hsf]
                  simpa [processItems, hud, hsf, hhas] using hfi
              | false =>
                  intro fi hfi
                  refine ih fs (q ++ [(⟨f, some i, fsp⟩ : feedItem)])
                    (logs ++ (storage.has env st fs uid).2) ?_ fi ?_
                  · intro fj hfj
                    rcases List.mem_append.mp hfj with hfj | hfj
                    · exact hq fj hfj
                    · rcases List.mem_singleton.mp hfj with rfl
                      simp [hud]
                  · rw [hsf]
                    simpa [processItems, hud, hsf, hhas] using hfi

theorem FS.hasPath_of_mem (fs : FS) (p c : String) (h : (p, c) ∈ fs) :
    fs.hasPath p = true := by
  unfold FS.hasPath
  rw [List.any_eq_true]
  exact ⟨(p, c), h, by simp⟩

theorem isSome_some_getD (o : Option String) (h : o.isSome = true) :
    o = some (o.getD "") := by
  cases o with
  | none => simp at h
  | some a => rfl

/-- One-step unfolding of `processFeeds` when the feed UID computes. -/
theorem processFeeds_eq_of_feedUID (cfg : Config) (env : StorageEnv)
    (st : storage) (fsp : FeedSpec) (f : Feed) (fs0 : FS) (fUID : String)
    (hfu : calcFeedUID cfg ⟨f, none, fsp⟩ = some fUID) :
    processFeeds cfg env st fsp f fs0 =
      .ok ((storage.set env st (processItems cfg env st f fsp
            (storage.has env st fs0 fUID).1 f.items fs0 [] []).1 fUID).1,
        (processItems cfg env st f fsp (storage.has env st fs0 fUID).1
          f.items fs0 [] []).2.1,
        (storage.has env st fs0 fUID).2 ++
          (processItems cfg env st f fsp (storage.has env st fs0 fUID).1
            f.items fs0 [] []).2.2 ++
          (storage.set env st (processItems cfg env st f fsp
            (storage.has env st fs0 fUID).1 f.items fs0 [] []).1 fUID).2) := by
  unfold processFeeds
  rw [hfu]

theorem filter_ne_filter_ne (fs : FS) (p : String) :
    (fs.filter (fun e => e.1 != p)).filter (fun e => e.1 != p) =
      fs.filter (fun e => e.1 != p) := by
  induction fs with
  | nil => rfl
  | cons e fs ih =>
      by_cases hep : e.1 = p
      · simp [List.filter_cons, hep, ih]
      · simp [List.filter_cons, hep, ih]

theorem FS.insert_insert_same (fs : FS) (p v w : String) :
    (fs.insert p v).insert p w = fs.insert p w := by
  unfold FS.insert
  congr 1
  rw [List.filter_cons]
  simp only [bne_self_eq_false, Bool.false_eq_true, if_false]
  exact filter_ne_filter_ne fs p

theorem hexDigit_mem (n : Nat) (h : n < 16) :
    hexDigit n ∈ "0123456789abcdef".toList := by
  interval_cases n <;> decide

theorem hexSha256Chars_mem (k : String) (c : Char)
    (hc : c ∈ hexSha256Chars k) : c ∈ "0123456789abcdef".toList := by
  unfold hexSha256Chars at hc
  rw [List.mem_flatten] at hc
  obtain ⟨sub, hsub, hcsub⟩ := hc
  rw [List.mem_map] at hsub
  obtain ⟨b, hb, rfl⟩ := hsub
  unfold byteToHex at hcsub
  rcases List.mem_cons.mp hcsub with rfl | h
  · exact hexDigit_mem _ (Nat.mod_lt _ (by norm_num))
  · rcases List.mem_singleton.mp h with rfl
    exact hexDigit_mem _ (Nat.mod_lt _ (by norm_num))

/-! ## Claim theorems -/

/-- C1: for every Source whose feed identity is absent from the
IdentityStore (`seenFeed` false), processing a fetched feed (in the
environment where storage operations succeed, with every item identity
computable) marks all item identities as seen in the store and emits
zero NotificationEvents onto the dispatcher queue. -/
theorem C1_firstRun_floodSuppression (cfg : Config) (st : storage)
    (fsp : FeedSpec) (f : Feed) (fs0 : FS) (fUID : String)
    (hfu : calcFeedUID cfg ⟨f, none, fsp⟩ = some fUID)
    (hseen : (storage.has cleanEnv st fs0 fUID).1 = false)
    (huids : ∀ i ∈ f.items, (calcItemUID cfg ⟨f, some i, fsp⟩).isSome = true) :
    ∃ fs' logs, processFeeds cfg cleanEnv st fsp f fs0 = .ok (fs', [], logs) ∧
      ∀ i ∈ f.items, ∃ uid, calcItemUID cfg ⟨f, some i, fsp⟩ = some uid ∧
        (storage.has cleanEnv st fs' uid).1 = true := by
  have hseen' : storage.has cleanEnv st fs0 fUID = (false, []) := by
    simp only [has_cleanEnv] at hseen ⊢
    rw [hseen]
  have h := processItems_unseen cfg st f fsp f.items fs0 [] []
  have hP := processFeeds_eq_of_feedUID cfg cleanEnv st fsp f fs0 fUID hfu
  rw [hseen'] at hP
  dsimp only at hP
  rw [h.1] at hP
  refine ⟨_, _, hP, ?_⟩
  intro i hi
  cases hud : calcItemUID cfg ⟨f, some i, fsp⟩ with
  | none =>
      have hu := huids i hi
      rw [hud] at hu
      simp at hu
  | some uid =>
      refine ⟨uid, rfl, ?_⟩
      simp only [has_cleanEnv]
      exact hasPath_set_cleanEnv_mono st _ fUID _ (h.2.2 i hi uid hud)

/-- Closed instance of C1: a fresh two-item feed against an empty store. -/
theorem C1_firstRun_floodSuppression_witness :
    ∃ fs' logs, processFeeds cfgW cleanEnv stW fspW fW [] = .ok (fs', [], logs) ∧
      ∀ i ∈ fW.items, ∃ uid, calcItemUID cfgW ⟨fW, some i, fspW⟩ = some uid ∧
        (storage.has cleanEnv stW fs' uid).1 = true :=
  C1_firstRun_floodSuppression cfgW stW fspW fW [] "F" rfl rfl (fun _ _ => rfl)

/-- C2: for every Source whose feed identity is already present
(`seenFeed` true), the dedup pass enqueues, in native order, exactly the
items whose identity computes and is reported absent by `storage.has`,
and mutates the store only by re-marking the feed identity (item
identities are not marked by this step). -/
theorem C2_seenFeed_enqueueIffAbsent (cfg : Config) (env : StorageEnv)
    (st : storage) (fsp : FeedSpec) (f : Feed) (fs0 : FS) (fUID : String)
    (hfu : calcFeedUID cfg ⟨f, none, fsp⟩ = some fUID)
    (hseen : (storage.has env st fs0 fUID).1 = true) :
    ∃ logs, processFeeds cfg env st fsp f fs0 =
      .ok ((storage.set env st fs0 fUID).1,
        (f.items.filter (notifyDecision cfg env st f fsp fs0)).map
          (fun i => ⟨f, some i, fsp⟩),
        logs) := by
  have h := processItems_seen cfg env st f fsp f.items fs0 [] []
  have h2 := h.2
  rw [List.nil_append] at h2
  have hP := processFeeds_eq_of_feedUID cfg env st fsp f fs0 fUID hfu
  rw [hseen, h.1, h2] at hP
  exact ⟨_, hP⟩

/-- Closed instance of C2: a seen feed with two unseen items enqueues
both of them and re-marks only the feed identity. -/
theorem C2_seenFeed_enqueueIffAbsent_witness :
    ∃ logs, processFeeds cfgW cleanEnv stW fspW fW [(stW.keyPath "F", "F")] =
      .ok ((storage.set cleanEnv stW [(stW.keyPath "F", "F")] "F").1,
        (fW.items.filter
          (notifyDecision cfgW cleanEnv stW fW fspW [(stW.keyPath "F", "F")])).map
          (fun i => ⟨fW, some i, fspW⟩),
        logs) :=
  C2_seenFeed_enqueueIffAbsent cfgW cleanEnv stW fspW fW
    [(stW.keyPath "F", "F")] "F" rfl
    (by
      simp only [has_cleanEnv]
      exact FS.hasPath_of_mem _ _ "F" (List.Mem.head _))

/-- C4: re-processing a feed whose feed identity is marked seen and all
of whose (computable) item identities are recorded emits zero
NotificationEvents and leaves the presence set of the store unchanged. -/
theorem C4_reprocessUnchanged_noop (cfg : Config) (st : storage)
    (fsp : FeedSpec) (f : Feed) (fs0 : FS) (fUID : String)
    (hfu : calcFeedUID cfg ⟨f, none, fsp⟩ = some fUID)
    (hseen : fs0.hasPath (st.keyPath fUID) = true)
    (hitems : ∀ i ∈ f.items, ∀ uid, calcItemUID cfg ⟨f, some i, fsp⟩ = some uid →
      fs0.hasPath (st.keyPath uid) = true) :
    ∃ fs' logs, processFeeds cfg cleanEnv st fsp f fs0 = .ok (fs', [], logs) ∧
      ∀ p, fs'.hasPath p = fs0.hasPath p := by
  have hfil : f.items.filter (notifyDecision cfg cleanEnv st f fsp fs0) = [] := by
    rw [List.filter_eq_nil_iff]
    intro i hi
    cases hud : calcItemUID cfg ⟨f, some i, fsp⟩ with
    | none => simp [notifyDecision, hud]
    | some uid => simp [notifyDecision, hud, has_cleanEnv, hitems i hi uid hud]
  have hseen' : storage.has cleanEnv st fs0 fUID = (true, []) := by
    rw [has_cleanEnv, hseen]
  have h := processItems_seen cfg cleanEnv st f fsp f.items fs0 [] []
  have h2 := h.2
  rw [List.nil_append, hfil, List.map_nil] at h2
  have hP := processFeeds_eq_of_feedUID cfg cleanEnv st fsp f fs0 fUID hfu
  rw [hseen'] at hP
  dsimp only at hP
  rw [h.1, h2] at hP
  refine ⟨_, _, hP, ?_⟩
  intro p
  rw [hasPath_set_cleanEnv]
  cases hb : st.keyPath fUID == p with
  | false => simp
  | true =>
      have hp : st.keyPath fUID = p := eq_of_beq hb
      rw [← hp, hseen]
      simp

/-- Closed instance of C4: a fully-recorded two-item feed yields no
events and an unchanged presence set. -/
theorem C4_reprocessUnchanged_noop_witness :
    ∃ fs' logs, processFeeds cfgW cleanEnv stW fspW fW
        [(stW.keyPath "F", "F"), (stW.keyPath "F|i1", "F|i1"),
          (stW.keyPath "F|i2", "F|i2")] = .ok (fs', [], logs) ∧
      ∀ p, fs'.hasPath p =
        FS.hasPath [(stW.keyPath "F", "F"), (stW.keyPath "F|i1", "F|i1"),
          (stW.keyPath "F|i2", "F|i2")] p :=
  C4_reprocessUnchanged_noop cfgW stW fspW fW _ "F" rfl
    (FS.hasPath_of_mem _ _ "F" (List.Mem.head _))
    (by
      intro i hi uid huid
      simp only [fW, List.mem_cons, List.not_mem_nil, or_false] at hi
      rcases hi with rfl | rfl
      · rw [show calcItemUID cfgW ⟨fW, some itm1, fspW⟩ = some "F|i1" from rfl]
          at huid
        injection huid with he
        subst he
        exact FS.hasPath_of_mem _ _ "F|i1" (List.Mem.tail _ (List.Mem.head _))
      · rw [show calcItemUID cfgW ⟨fW, some itm2, fspW⟩ = some "F|i2" from rfl]
          at huid
        injection huid with he
        subst he
        exact FS.hasPath_of_mem _ _ "F|i2"
          (List.Mem.tail _ (List.Mem.tail _ (List.Mem.head _))))

/-- C8: a fetched feed with an empty item list produces no
NotificationEvents and no item marks, and the feed identity is still
marked after the (empty) item loop; in the clean environment the feed
identity is then reported seen. -/
theorem C8_emptyFeed_marksFeedOnly (cfg : Config) (env : StorageEnv)
    (st : storage) (fsp : FeedSpec) (f : Feed) (fs0 : FS) (fUID : String)
    (hfu : calcFeedUID cfg ⟨f, none, fsp⟩ = some fUID)
    (hempty : f.items = []) :
    ∃ logs, processFeeds cfg env st fsp f fs0 =
        .ok ((storage.set env st fs0 fUID).1, [], logs) ∧
      (storage.has cleanEnv st (storage.set cleanEnv st fs0 fUID).1 fUID).1 = true := by
  have hP := processFeeds_eq_of_feedUID cfg env st fsp f fs0 fUID hfu
  rw [hempty] at hP
  dsimp only [processItems] at hP
  refine ⟨_, hP, ?_⟩
  simp only [has_cleanEnv]
  exact hasPath_set_cleanEnv_self st fs0 fUID

/-- Closed instance of C8: the empty feed against an empty store. -/
theorem C8_emptyFeed_marksFeedOnly_witness :
    ∃ logs, processFeeds cfgW cleanEnv stW fspW fW0 [] =
        .ok ((storage.set cleanEnv stW [] "F").1, [], logs) ∧
      (storage.has cleanEnv stW (storage.set cleanEnv stW [] "F").1 "F").1 = true :=
  C8_emptyFeed_marksFeedOnly cfgW cleanEnv stW fspW fW0 [] "F" rfl rfl

/-- C10: every feedItem the dedup filter enqueues has a computable item
UID, so the dispatcher's discarded error result of `calcItemUID` is the
genuine UID of the event being delivered. -/
theorem C10_queueInvariant_uidComputable (cfg : Config) (env : StorageEnv)
    (st : storage) (fsp : FeedSpec) (f : Feed) (fs0 fs' : FS)
    (q : List feedItem) (logs : List String)
    (h : processFeeds cfg env st fsp f fs0 = .ok (fs', q, logs)) :
    ∀ fi ∈ q, calcItemUID cfg fi = some ((calcItemUID cfg fi).getD "") := by
  cases hfu : calcFeedUID cfg ⟨f, none, fsp⟩ with
  | none =>
      have hE : processFeeds cfg env st fsp f fs0 =
          .error ("failed to calculate feed uid in feed " ++ fsp.name) := by
        unfold processFeeds
        rw [hfu]
      rw [hE] at h
      exact absurd h (by simp)
  | some fUID =>
      rw [processFeeds_eq_of_feedUID cfg env st fsp f fs0 fUID hfu] at h
      simp only [Except.ok.injEq, Prod.mk.injEq] at h
      intro fi hfi
      refine isSome_some_getD _ ?_
      refine processItems_queue_uids cfg env st f fsp
        (storage.has env st fs0 fUID).1 f.items fs0 [] []
        (by intro fj hfj; simp at hfj) fi ?_
      rw [h.2.1]
      exact hfi

set_option maxRecDepth 8000 in
/-- Closed instance of C10 on a run that enqueues both items of a seen
feed. -/
theorem C10_queueInvariant_uidComputable_witness :
    calcItemUID cfgW ⟨fW, some itm1, fspW⟩ =
      some ((calcItemUID cfgW ⟨fW, some itm1, fspW⟩).getD "") ∧
    calcItemUID cfgW ⟨fW, some itm2, fspW⟩ =
      some ((calcItemUID cfgW ⟨fW, some itm2, fspW⟩).getD "") := by
  have h := C10_queueInvariant_uidComputable cfgW cleanEnv stW fspW fW
    [(stW.keyPath "F", "F")]
    (storage.set cleanEnv stW [(stW.keyPath "F", "F")] "F").1
    [⟨fW, some itm1, fspW⟩, ⟨fW, some itm2, fspW⟩] []
    (by
      have hs : (storage.has cleanEnv stW [(stW.keyPath "F", "F")] "F").1 = true := by
        simp only [has_cleanEnv]
        exact FS.hasPath_of_mem _ _ "F" (List.Mem.head _)
      have hP := processFeeds_eq_of_feedUID cfgW cleanEnv stW fspW fW
        [(stW.keyPath "F", "F")] "F" rfl
      rw [hs] at hP
      have h := processItems_seen cfgW cleanEnv stW fW fspW fW.items
        [(stW.keyPath "F", "F")] [] []
      have hfil : fW.items.filter
          (notifyDecision cfgW cleanEnv stW fW fspW [(stW.keyPath "F", "F")]) =
          [itm1, itm2] := by decide
      have hlog : (processItems cfgW cleanEnv stW fW fspW true fW.items
          [(stW.keyPath "F", "F")] [] []).2.2 = [] := by decide
      have h2 := h.2
      rw [List.nil_append, hfil] at h2
      rw [h.1, h2, hlog] at hP
      rw [hP]
      rw [has_cleanEnv, set_cleanEnv]
      rfl)
  exact ⟨h _ (List.Mem.head _), h _ (List.Mem.tail _ (List.Mem.head _))⟩

/-- C3: a dispatcher worker marks the item identity in the store exactly
when delivery succeeds; any render failure or delivery failure leaves
the filesystem untouched, hence re-processing the same feed against it
is unchanged. -/
theorem C3_dispatchMarksIffDelivery (cfg : Config) (env : StorageEnv)
    (menv : MailEnv) (st : storage) (fs : FS) (fi : feedItem) :
    ((sendEmailsStep cfg env menv st fs fi).1 =
      if deliverySucceeds cfg menv fi then
        (storage.set env st fs ((calcItemUID cfg fi).getD "")).1
      else fs) ∧
    ∀ fsp f, deliverySucceeds cfg menv fi = false →
      processFeeds cfg env st fsp f (sendEmailsStep cfg env menv st fs fi).1 =
        processFeeds cfg env st fsp f fs := by
  have key : (sendEmailsStep cfg env menv st fs fi).1 =
      if deliverySucceeds cfg menv fi then
        (storage.set env st fs ((calcItemUID cfg fi).getD "")).1
      else fs := by
    unfold sendEmailsStep deliverySucceeds
    cases cfg.senderTpl fi with
    | none => rfl
    | some sender =>
        cases cfg.subjectTpl fi with
        | none => rfl
        | some subject =>
            cases cfg.contentTpl fi with
            | none => rfl
            | some content =>
                cases hse : menv.sendErr sender (mkEmailMsg cfg sender subject content) with
                | none => simp [hse]
                | some e => simp [hse]
  refine ⟨key, ?_⟩
  intro fsp f hd
  rw [key, hd]
  simp

/-- Closed instance of C3: with a failing transport the store stays
empty and a re-run of the dedup filter is unaffected. -/
theorem C3_dispatchMarksIffDelivery_witness :
    (sendEmailsStep cfgW cleanEnv menvFail stW [] ⟨fW, some itm1, fspW⟩).1 = [] ∧
    processFeeds cfgW cleanEnv stW fspW fW
        (sendEmailsStep cfgW cleanEnv menvFail stW [] ⟨fW, some itm1, fspW⟩).1 =
      processFeeds cfgW cleanEnv stW fspW fW [] :=
  ⟨by
    have h := (C3_dispatchMarksIffDelivery cfgW cleanEnv menvFail stW []
      ⟨fW, some itm1, fspW⟩).1
    rw [h]
    rfl,
   (C3_dispatchMarksIffDelivery cfgW cleanEnv menvFail stW []
     ⟨fW, some itm1, fspW⟩).2 fspW fW rfl⟩

/-- C5 (amended): the storage key is the lowercase-hex SHA-256 digest of
the identity — a fixed-width (64) hex string — stored under two path
segments, the two-character shard prefix and then the FULL digest (not
the remainder); the original identity string is the entry's content. -/
theorem C5_amended_keyDerivation (st : storage) (fs : FS) (k : String) :
    st.keyPath k =
      st.path ++ "/" ++ String.mk ((hexSha256Chars k).take 2) ++ "/" ++
        hexSha256 k ∧
    (hexSha256 k).length = 64 ∧
    (∀ c ∈ hexSha256Chars k, c ∈ "0123456789abcdef".toList) ∧
    (storage.set cleanEnv st fs k).1.lookup (st.keyPath k) = some k := by
  refine ⟨rfl, hexSha256Chars_length k, hexSha256Chars_mem k, ?_⟩
  rw [set_cleanEnv]
  exact FS.lookup_insert_self _ _ k

/-- C5 counterexample: the second path segment is the full digest, not
the remainder after the shard prefix — at storage path "st" and
identity "a", the key path differs from the prefix/remainder layout the
claim describes (the lengths already disagree: 70 versus 68). -/
theorem C5_counterexample_fullDigestNotRemainder :
    storage.keyPath ⟨"st"⟩ "a" ≠
      "st" ++ "/" ++ String.mk ((hexSha256Chars "a").take 2) ++ "/" ++
        String.mk ((hexSha256Chars "a").drop 2) := by
  intro h
  have hlen := congrArg String.length h
  have h64 := hexSha256Chars_length "a"
  rw [show storage.keyPath ⟨"st"⟩ "a" =
    "st" ++ "/" ++ String.mk ((hexSha256Chars "a").take 2) ++ "/" ++
      hexSha256 "a" from rfl] at hlen
  simp only [String.length_append] at hlen
  rw [show (String.mk ((hexSha256Chars "a").take 2)).length =
        ((hexSha256Chars "a").take 2).length from rfl,
      show (String.mk ((hexSha256Chars "a").drop 2)).length =
        ((hexSha256Chars "a").drop 2).length from rfl,
      show (hexSha256 "a").length = (hexSha256Chars "a").length from rfl,
      List.length_take, List.length_drop, h64] at hlen
  norm_num at hlen

/-- C6: `storage.has` returns false both when the entry is absent and
when `Stat` fails with a non-not-found error (logging a warning in the
latter case), and a storage read error never aborts the run: with the
feed UID computable, `processFeeds` still returns a success value under
any storage environment. -/
theorem C6_hasFailsOpen (env : StorageEnv) (st : storage) (fs : FS)
    (k : String) :
    ((fs.hasPath (st.keyPath k) = false ∧ env.statErr (st.keyPath k) = none) →
      storage.has env st fs k = (false, [])) ∧
    (∀ e, env.statErr (st.keyPath k) = some e →
      storage.has env st fs k =
        (false,
          ["warn: cannot stat key " ++ st.keyPath k ++ " in storage: " ++ e])) ∧
    (∀ cfg fsp f fUID, calcFeedUID cfg ⟨f, none, fsp⟩ = some fUID →
      ∃ v, processFeeds cfg env st fsp f fs = .ok v) := by
  refine ⟨?_, ?_, ?_⟩
  · rintro ⟨h1, h2⟩
    unfold storage.has
    dsimp only
    rw [h2, h1]
  · intro e he
    unfold storage.has
    dsimp only
    rw [he]
  · intro cfg fsp f fUID hfu
    exact ⟨_, processFeeds_eq_of_feedUID cfg env st fsp f fs fUID hfu⟩

/-- Closed instance of C6: an absent key reads as not-present; with a
permission error every read is false-with-warning and the run still
produces a success value. -/
theorem C6_hasFailsOpen_witness :
    storage.has cleanEnv stW [] "a" = (false, []) ∧
    storage.has envStat stW [] "a" =
      (false, ["warn: cannot stat key " ++ stW.keyPath "a" ++
        " in storage: " ++ "permission denied"]) ∧
    (∃ v, processFeeds cfgW envStat stW fspW fW [] = .ok v) :=
  ⟨(C6_hasFailsOpen cleanEnv stW [] "a").1 ⟨rfl, rfl⟩,
   (C6_hasFailsOpen envStat stW [] "a").2.1 "permission denied" rfl,
   (C6_hasFailsOpen envStat stW [] "a").2.2 cfgW fspW fW "F" rfl⟩

/-- C7 (amended): `storage.set` is idempotent in every environment and
never propagates an error; a directory-creation or file-creation
failure leaves the store unchanged (identity unmarked), but a failure
of the content write AFTER successful creation leaves the created empty
entry present — the identity IS then marked. -/
theorem C7_amended_markIdempotentBestEffort :
    (∀ env st fs k,
      (storage.set env st (storage.set env st fs k).1 k).1 =
        (storage.set env st fs k).1) ∧
    (∀ env st fs k, (env.mkdirErr (st.keyDir k)).isSome = true →
      (storage.set env st fs k).1 = fs) ∧
    (∀ env st fs k, env.mkdirErr (st.keyDir k) = none →
      (env.createErr (st.keyPath k)).isSome = true →
      (storage.set env st fs k).1 = fs) ∧
    (∀ env st fs k, env.mkdirErr (st.keyDir k) = none →
      env.createErr (st.keyPath k) = none →
      (env.writeErr (st.keyPath k)).isSome = true →
      (storage.set env st fs k).1 = fs.insert (st.keyPath k) "" ∧
        ((storage.set env st fs k).1).hasPath (st.keyPath k) = true) := by
  refine ⟨?_, ?_, ?_, ?_⟩
  · intro env st fs k
    cases hm : env.mkdirErr (st.keyDir k) with
    | some e => simp [storage.set, hm]
    | none =>
        cases hc : env.createErr (st.keyPath k) with
        | some e => simp [storage.set, hm, hc]
        | none =>
            cases hw : env.writeErr (st.keyPath k) with
            | some e =>
                simp only [storage.set, hm, hc, hw]
                rw [FS.insert_insert_same]
            | none =>
                simp only [storage.set, hm, hc, hw]
                rw [FS.insert_insert_same, FS.insert_insert_same]
  · intro env st fs k hm
    cases he : env.mkdirErr (st.keyDir k) with
    | none => rw [he] at hm; simp at hm
    | some e => simp [storage.set, he]
  · intro env st fs k hm hc
    cases he : env.createErr (st.keyPath k) with
    | none => rw [he] at hc; simp at hc
    | some e => simp [storage.set, hm, he]
  · intro env st fs k hm hc hw
    cases he : env.writeErr (st.keyPath k) with
    | none => rw [he] at hw; simp at hw
    | some e =>
        constructor
        · simp [storage.set, hm, hc, he]
        · simp [storage.set, hm, hc, he, FS.hasPath_insert_self]

/-- Closed instance of C7 (amended): marking twice equals marking once;
each early failure leaves the empty store empty; a content-write
failure leaves the created empty entry. -/
theorem C7_amended_markIdempotentBestEffort_witness :
    (storage.set cleanEnv stW (storage.set cleanEnv stW [] "a").1 "a").1 =
      (storage.set cleanEnv stW [] "a").1 ∧
    (storage.set envMkdir stW [] "a").1 = [] ∧
    (storage.set envCreate stW [] "a").1 = [] ∧
    (storage.set envWr stW [] "a").1 = FS.insert [] (stW.keyPath "a") "" :=
  ⟨C7_amended_markIdempotentBestEffort.1 cleanEnv stW [] "a",
   C7_amended_markIdempotentBestEffort.2.1 envMkdir stW [] "a" rfl,
   C7_amended_markIdempotentBestEffort.2.2.1 envCreate stW [] "a" rfl rfl,
   (C7_amended_markIdempotentBestEffort.2.2.2 envWr stW [] "a" rfl rfl rfl).1⟩

/-- C7 counterexample: the claim says a storage write failure leaves
the identity unmarked, but when only the content write fails (directory
and file creation succeed, e.g. disk fills after `Create`), `set` logs
AND the identity is reported present afterwards. -/
theorem C7_counterexample_writeFailureStillMarks :
    (storage.has envWr stW (storage.set envWr stW [] "a").1 "a").1 = true ∧
    (storage.set envWr stW [] "a").2 ≠ [] := by
  constructor
  · simp [storage.set, storage.has, envWr, FS.insert, FS.hasPath]
  · simp [storage.set, envWr]

/-- C9: a command-based Source whose command exits non-zero produces a
warning log carrying the captured stderr, contributes no
NotificationEvents and no store mutation, and the worker continues with
the remaining Sources of its queue. -/
theorem C9_execFeedNonzeroExit (cfg : Config) (env : StorageEnv)
    (xenv : ExecEnv) (st : storage) (fsp : FeedSpec) (rest : List FeedSpec)
    (fs : FS) (stderr : String)
    (hx : xenv.execCmd fsp.exec = .exitErr stderr) :
    processExecFeeds cfg env xenv st (fsp :: rest) fs =
      ((processExecFeeds cfg env xenv st rest fs).1,
       (processExecFeeds cfg env xenv st rest fs).2.1,
       ("info: processing exec feed: " ++ fsp.name) ::
         ("warn: failed to run exec feed " ++ fsp.name ++
           " successfully: " ++ stderr) ::
         (processExecFeeds cfg env xenv st rest fs).2.2) := by
  simp only [processExecFeeds, hx]

/-- Closed instance of C9: a one-element queue whose command fails
leaves the run result of the empty queue plus the two log lines. -/
theorem C9_execFeedNonzeroExit_witness :
    processExecFeeds cfgW cleanEnv xenvErr stW [fspX] [] =
      ((processExecFeeds cfgW cleanEnv xenvErr stW [] []).1,
       (processExecFeeds cfgW cleanEnv xenvErr stW [] []).2.1,
       ("info: processing exec feed: " ++ fspX.name) ::
         ("warn: failed to run exec feed " ++ fspX.name ++
           " successfully: " ++ "boom") ::
         (processExecFeeds cfgW cleanEnv xenvErr stW [] []).2.2) :=
  C9_execFeedNonzeroExit cfgW cleanEnv xenvErr stW fspX [] [] "boom" rfl

end Frider
